import Mathlib

/-!
Shallow embedding of the rust-objc Objective-C block bridge
(`core/block.rs`), of the message-signature verification
(`src/message/verify.rs`) and of the argument-encoding machinery
(`src/encode.rs`).

Machine pointers are modelled by identity tokens: the type-erased invoke
function pointer by the arity of the trampoline it denotes (the only
pointers this library ever installs), descriptor helper pointers by an
enumeration of the two helper functions, and heap allocations by an
address drawn from a monotone allocation counter. The captured closure
is a pure function over an abstract value universe `V`.
-/

namespace Objc

/-- Objective-C runtime classes that can appear as a block's `isa` tag:
`stackBlock` models the linked `_NSConcreteStackBlock`; `mallocBlock`
models the heap-block class the runtime uses for a promoted copy. -/
inductive ClassId where
  | stackBlock
  | mallocBlock
deriving DecidableEq, Repr

/-- The type-erased invoke pointer stored in a block header. The only
pointers this library ever stores there are the per-arity trampolines
`concrete_block_invoke_args0` .. `concrete_block_invoke_args12`, so a
code pointer is identified by its trampoline's arity. -/
inductive CodePtr where
  | trampoline (n : Nat)
deriving DecidableEq, Repr

/-- Helper function pointers storable in a block descriptor:
`block_context_copy::<B>` and `block_context_dispose::<B>`. -/
inductive HelperPtr where
  | contextCopy
  | contextDispose
deriving DecidableEq, Repr

/-- A host closure `F`: the captured environment `env` (of `size` bytes
in the Rust instance) together with the pure code the closure runs on
its environment and its argument list. -/
structure Clos (V : Type) where
  size : Nat
  env : V
  code : V → List V → V

/-- Applying the closure directly to an argument tuple (the Rust call
`(closure)(a1, .., an)`). -/
def Clos.apply {V : Type} (c : Clos V) (args : List V) : V :=
  c.code c.env args

/-- The fixed ABI block header, `#[repr(C)] struct Block<A, R>`:
`isa` class pointer, `flags` word, reserved word, invoke pointer. -/
structure Block where
  isa : ClassId
  flags : Nat
  _reserved : Nat
  invoke : CodePtr
deriving DecidableEq, Repr

/-- `#[repr(C)] struct BlockDescriptor<B>`: reserved word, the byte
size of the owning block instance type `B`, and the copy and dispose
helper pointers. -/
structure BlockDescriptor where
  _reserved : Nat
  block_size : Nat
  copy_helper : HelperPtr
  dispose_helper : HelperPtr
deriving DecidableEq, Repr

/-- `BlockDescriptor::new()`: reserved zero, `block_size` equal to
`mem::size_of::<B>()` for the owning instance type `B` (passed here as
`size_of_B`), and the two default helper pointers. -/
def BlockDescriptor.new (size_of_B : Nat) : BlockDescriptor :=
  { _reserved := 0
    block_size := size_of_B
    copy_helper := HelperPtr.contextCopy
    dispose_helper := HelperPtr.contextDispose }

/-- A heap allocation (`Box<T>`): `addr` models the allocation's
address, making sharing of one allocation between two owners
observable. -/
structure Box (T : Type) where
  addr : Nat
  val : T

/-- `#[repr(C)] struct ConcreteBlock<A, R, F>`: ABI header, owned boxed
descriptor, captured closure. -/
structure ConcreteBlock (V : Type) where
  base : Block
  descriptor : Box BlockDescriptor
  closure : Clos V

/-- `mem::size_of::<ConcreteBlock<A, R, F>>()` under the `#[repr(C)]`
64-bit layout: isa pointer (8) + flags (4) + reserved (4) + invoke
pointer (8) + descriptor box pointer (8) + the captured closure's
`size` bytes. -/
def concrete_block_size (closure_size : Nat) : Nat :=
  8 + 4 + 4 + 8 + 8 + closure_size

/-- `ConcreteBlock::with_invoke(invoke, closure)`: builds the header
with isa `_NSConcreteStackBlock`, flags `1 << 25`
(`BLOCK_HAS_COPY_DISPOSE`), reserved zero and the given invoke pointer;
boxes a fresh `BlockDescriptor` at the next free address `alloc`; moves
the closure in. Total — construction cannot fail. Returns the block and
the advanced allocation counter. -/
def with_invoke {V : Type} (invoke : CodePtr) (closure : Clos V) (alloc : Nat) :
    ConcreteBlock V × Nat :=
  ({ base :=
      { isa := ClassId.stackBlock
        flags := 1 <<< 25
        _reserved := 0
        invoke := invoke }
     descriptor :=
      { addr := alloc
        val := BlockDescriptor.new (concrete_block_size closure.size) }
     closure := closure }, alloc + 1)

/-- `IntoConcreteBlock::into_concrete_block` for the arity-`n`
instantiation of `concrete_block_impl!` (0 ≤ n ≤ 12): installs the
arity-`n` trampoline as the invoke pointer. -/
def into_concrete_block {V : Type} (n : Nat) (closure : Clos V) (alloc : Nat) :
    ConcreteBlock V × Nat :=
  with_invoke (CodePtr.trampoline n) closure alloc

/-- `ConcreteBlock::new(closure)`, which is
`closure.into_concrete_block()`. -/
def ConcreteBlock.new {V : Type} (n : Nat) (closure : Clos V) (alloc : Nat) :
    ConcreteBlock V × Nat :=
  into_concrete_block n closure alloc

/-- The arity-`n` trampoline `concrete_block_invoke_argsN`: recovers
the `ConcreteBlock` from the block pointer and applies its closure to
the `n` forwarded arguments in declaration order. The generated thunk
physically takes exactly `n` arguments, so it is modelled only on
argument lists of length `n`. -/
def concrete_block_invoke {V : Type} (n : Nat) (b : ConcreteBlock V)
    (args : List V) : Option V :=
  if args.length = n then some (b.closure.apply args) else none

/-- `BlockArguments::call_block`: transmutes the stored invoke pointer
back to its typed form and calls it with the block pointer and the
tuple elements in declaration order. -/
def call_block {V : Type} (b : ConcreteBlock V) (args : List V) : Option V :=
  match b.base.invoke with
  | CodePtr.trampoline n => concrete_block_invoke n b args

/-- `Block::call(args)`, which is `args.call_block(self)`. The memory
behind any block handle produced by this library is a full
`ConcreteBlock`, so calls are modelled on that memory. -/
def ConcreteBlock.call {V : Type} (b : ConcreteBlock V) (args : List V) :
    Option V :=
  call_block b args

/-- `block_context_copy::<B>(dst, src)`: the runtime has already
memmoved the source block into the destination, so there is nothing to
do — both blocks are returned unchanged. -/
def block_context_copy {B : Type} (dst src : B) : B × B :=
  (dst, src)

/-- Dispatch of a stored copy-helper pointer to its function.
`contextDispose` is never installed as a copy helper by this library;
its row is inert. -/
def copy_helper_sem {V : Type} :
    HelperPtr → ConcreteBlock V → ConcreteBlock V →
      ConcreteBlock V × ConcreteBlock V
  | HelperPtr.contextCopy, dst, src => block_context_copy dst src
  | HelperPtr.contextDispose, dst, src => (dst, src)

/-- `block_context_dispose::<B>` reads the block out of its heap slot
(`ptr::read`) and lets it drop, which destructs the captured
environment in place exactly once. This maps a stored dispose-helper
pointer to the number of times it runs the captured environment's
destructor. -/
def dispose_env_drops : HelperPtr → Nat
  | HelperPtr.contextDispose => 1
  | HelperPtr.contextCopy => 0

/-- Modelled from the spec: the foreign runtime's copy primitive
reached by `msg_send![&self.base, copy]` (the Objective-C runtime and
the message-send path are external collaborators, not under the block
source). Per the spec it allocates `block_size` bytes, performs a raw
byte copy of the whole instance — header, descriptor pointer and
captured environment verbatim — retags the copy's type tag as a
heap-resident block, and invokes the descriptor's copy helper on the
new and old locations, returning the new heap object. -/
def msg_send_copy {V : Type} (b : ConcreteBlock V) : ConcreteBlock V :=
  let dst : ConcreteBlock V :=
    { base :=
        { isa := ClassId.mallocBlock
          flags := b.base.flags
          _reserved := b.base._reserved
          invoke := b.base.invoke }
      descriptor := b.descriptor
      closure := b.closure }
  (copy_helper_sem b.descriptor.val.copy_helper dst b).1

/-- `ConcreteBlock::copy(self)`: run the runtime copy primitive on the
block and return the heap handle; the accompanying `mem::forget(self)`
is visible at the lifecycle level (`promote`). -/
def ConcreteBlock.copy {V : Type} (b : ConcreteBlock V) : ConcreteBlock V :=
  msg_send_copy b

/-- `Clone for ConcreteBlock`:
`with_invoke(transmute(self.invoke), self.closure.clone())`, threading
the allocator for the clone's own fresh descriptor box. -/
def ConcreteBlock.clone {V : Type} (b : ConcreteBlock V) (alloc : Nat) :
    ConcreteBlock V × Nat :=
  with_invoke b.base.invoke b.closure alloc

/-- Ownership lifecycle of one wrapped closure: whether the stack
binding is still scheduled for its normal destructor run, the promoted
heap object if any, and how many times the captured environment's
destructor has run so far. -/
structure LifecycleState (V : Type) where
  stack : Option (ConcreteBlock V)
  heap : Option (ConcreteBlock V)
  env_drops : Nat

/-- Construct a stack-resident block: the binding is live, no heap copy
exists, and the captured environment has not been destructed. -/
def construct {V : Type} (n : Nat) (closure : Clos V) (alloc : Nat) :
    LifecycleState V :=
  { stack := some (ConcreteBlock.new n closure alloc).1
    heap := none
    env_drops := 0 }

/-- `ConcreteBlock::copy` at the lifecycle level: run the runtime copy
primitive, then `mem::forget(self)` — the stack binding is withdrawn
from normal destruction without any destructor running. -/
def promote {V : Type} (s : LifecycleState V) : LifecycleState V :=
  match s.stack with
  | some b =>
    { stack := none
      heap := some (msg_send_copy b)
      env_drops := s.env_drops }
  | none => s

/-- End of the stack binding's scope: a still-live (never promoted)
binding is dropped normally, destructing the captured environment once;
a forgotten binding is not touched. -/
def scope_end {V : Type} (s : LifecycleState V) : LifecycleState V :=
  match s.stack with
  | some _ =>
    { stack := none
      heap := s.heap
      env_drops := s.env_drops + 1 }
  | none => s

/-- Final release of the heap handle (reference count reaching zero):
the runtime runs the descriptor's dispose helper on the heap block and
then frees the allocation itself. -/
def release {V : Type} (s : LifecycleState V) : LifecycleState V :=
  match s.heap with
  | some b =>
    { stack := s.stack
      heap := none
      env_drops := s.env_drops + dispose_env_drops b.descriptor.val.dispose_helper }
  | none => s

/-- A sequence of block constructions (`with_invoke` calls) threaded
through the allocation counter. -/
def build_blocks {V : Type} :
    List (CodePtr × Clos V) → Nat → List (ConcreteBlock V) × Nat
  | [], alloc => ([], alloc)
  | (p, c) :: rest, alloc =>
    let r := with_invoke p c alloc
    let rs := build_blocks rest r.2
    (r.1 :: rs.1, rs.2)

/-- A concrete value universe for scenario instantiations: integers and
owned strings. -/
inductive Val where
  | int (i : Int)
  | str (s : String)
deriving DecidableEq, Repr

/-- Scenario B's closure `|a: i32| a + 5`: captures nothing. -/
def add_five : Clos Val :=
  { size := 0
    env := Val.int 0
    code := fun _ args =>
      match args with
      | [Val.int a] => Val.int (a + 5)
      | _ => Val.int 0 }

/-- Scenario A's closure `|| 13`: captures nothing. -/
def const13 : Clos Val :=
  { size := 0
    env := Val.int 0
    code := fun _ _ => Val.int 13 }

/-- An Objective-C type encoding, treated as a black-box comparable
token rendered by its type-code string. -/
abbrev Encoding := String

/-- A selector, identified by its registered name. -/
abbrev Sel := String

/-- A runtime `Method`: its name, its return-type encoding, and its
declared argument-type encodings, where indices 0 and 1 are the
implicit `self` and `_cmd`. -/
structure Method where
  name : String
  return_type : Encoding
  arg_types : List Encoding
deriving DecidableEq, Repr

/-- `Method::arguments_count()`. -/
def Method.arguments_count (m : Method) : Nat :=
  m.arg_types.length

/-- `Method::argument_type(index)`, `None` past the declared count. -/
def Method.argument_type (m : Method) (i : Nat) : Option Encoding :=
  m.arg_types.get? i

/-- A runtime class: its name and its instance-method table. -/
structure ObjcClass where
  name : String
  methods : List (Sel × Method)
deriving DecidableEq, Repr

/-- `Class::instance_method(sel)`. -/
def ObjcClass.instance_method (c : ObjcClass) (sel : Sel) : Option Method :=
  (c.methods.find? (fun p => p.1 == sel)).map (fun p => p.2)

/-- `MessageError`: one constructor per `format!` site in
`verify_message_signature` and in the encodings comparator, carrying
exactly the data interpolated into that site's message. -/
inductive MessageError where
  | methodNotFound (sel : Sel) (cls : String)
  | returnTypeMismatch (ret expected : Encoding) (method : String)
  | argumentCountMismatch (method : String) (expected given : Nat)
  | argumentTypeMismatch (method : String) (index : Nat) (expected given : Encoding)
  | unexpectedArgument (method : String) (index : Nat) (given : Encoding)
deriving DecidableEq, Repr

/-- An argument type together with its static Objective-C encoding
(`Encode::encode()`); an argument tuple type is a list of these in
declaration order. -/
structure ArgTy where
  enc : Encoding
deriving DecidableEq, Repr

/-- The `count_idents!` macro: 0 for the empty tuple, 1 for a
singleton, otherwise 1 plus the count of the tail. -/
def count_idents : List ArgTy → Nat
  | [] => 0
  | [_] => 1
  | _ :: b :: rest => 1 + count_idents (b :: rest)

/-- `EncodeArguments::len()` for the tuple impls
(`encode_args_impl!`). -/
def encode_arguments_len (ts : List ArgTy) : Nat :=
  count_idents ts

/-- `EncodeArguments::encodings()`: the tuple of each element type's
encoding, element by element in declaration order. -/
def encode_arguments_encodings : List ArgTy → List Encoding
  | [] => []
  | t :: ts => t.enc :: encode_arguments_encodings ts

/-- The `MethodEncodingsComparator` walk: visits the supplied encodings
with a running method-argument index (started at 2 to skip `self` and
`_cmd`), stopping at the first mismatch with an error identifying the
method, the offending index and the expected and given encodings. -/
def compare_encodings (m : Method) : Nat → List Encoding → Except MessageError Unit
  | _, [] => Except.ok ()
  | i, e :: rest =>
    match m.argument_type i with
    | some expected =>
      if expected = e then compare_encodings m (i + 1) rest
      else Except.error (MessageError.argumentTypeMismatch m.name i expected e)
    | none => Except.error (MessageError.unexpectedArgument m.name i e)

/-- `verify_message_signature::<A, R>(cls, sel)`, where `R`'s encoding
is `ret` and `A` is the argument tuple `args`: look up the instance
method, check the return-type encoding, check that 2 + `A::len()`
equals the method's declared argument count, then compare the supplied
encodings index by index. -/
def verify_message_signature (cls : ObjcClass) (sel : Sel) (ret : Encoding)
    (args : List ArgTy) : Except MessageError Unit :=
  match cls.instance_method sel with
  | none => Except.error (MessageError.methodNotFound sel cls.name)
  | some method =>
    if method.return_type ≠ ret then
      Except.error (MessageError.returnTypeMismatch ret method.return_type method.name)
    else if 2 + encode_arguments_len args ≠ method.arguments_count then
      Except.error (MessageError.argumentCountMismatch method.name
        method.arguments_count (2 + encode_arguments_len args))
    else
      compare_encodings method 2 (encode_arguments_encodings args)

/-- A concrete class for instantiations: one instance method `setX:`
taking `(self, _cmd, int)` and returning void. -/
def test_class : ObjcClass :=
  { name := "TestClass"
    methods :=
      [("setX:",
        { name := "setX:"
          return_type := "v"
          arg_types := ["@", ":", "i"] })] }

/-- C1: for every supported arity n (0 through 12), invoking a
`ConcreteBlock` constructed from a closure, through `Block::call`
dispatching to the installed arity-n trampoline, with an n-tuple of
argument values, returns exactly the value the closure returns when
applied directly to the same arguments in declaration order. -/
theorem block_call_applies_closure {V : Type} (n : Nat) (hn : n ≤ 12)
    (c : Clos V) (alloc : Nat) (args : List V) (h : args.length = n) :
    ConcreteBlock.call (ConcreteBlock.new n c alloc).1 args = some (c.apply args) := by
  simp [ConcreteBlock.call, call_block, ConcreteBlock.new, into_concrete_block,
    with_invoke, concrete_block_invoke, h]

/-- Witness for C1 at arity 1: calling the block built from `a + 5`
with the single argument 6 returns what the closure itself returns. -/
theorem block_call_applies_closure_witness :
    ConcreteBlock.call (ConcreteBlock.new 1 add_five 0).1 [Val.int 6] =
      some (add_five.apply [Val.int 6]) :=
  block_call_applies_closure 1 (by decide) add_five 0 [Val.int 6] (by decide)

/-- C2: promoting a stack-resident `ConcreteBlock` to the heap with
`ConcreteBlock::copy` and invoking the heap handle yields the same
result as invoking the stack instance directly with the same arguments,
for every captured closure (including ones capturing heap-owned data:
`V` and the environment are arbitrary), and the captured environment is
observably identical after promotion. -/
theorem copy_preserves_invocation {V : Type} (n : Nat) (c : Clos V)
    (alloc : Nat) (args : List V) :
    ConcreteBlock.call (ConcreteBlock.copy (ConcreteBlock.new n c alloc).1) args =
        ConcreteBlock.call (ConcreteBlock.new n c alloc).1 args ∧
    (ConcreteBlock.copy (ConcreteBlock.new n c alloc).1).closure = c := by
  exact ⟨rfl, rfl⟩

/-- C3: over the whole lifecycle the captured environment's destructor
runs exactly once. After promotion nothing has been destructed; the
forgotten stack binding's scope end is a no-op (its destructor never
runs); final release of the promoted block destructs the environment
once, via the installed dispose helper; and a never-promoted stack
binding is destructed exactly once at scope end. -/
theorem env_dropped_exactly_once {V : Type} (n : Nat) (c : Clos V) (alloc : Nat) :
    (promote (construct n c alloc)).env_drops = 0 ∧
    scope_end (promote (construct n c alloc)) = promote (construct n c alloc) ∧
    (release (scope_end (promote (construct n c alloc)))).env_drops = 1 ∧
    (scope_end (construct n c alloc)).env_drops = 1 := by
  exact ⟨rfl, rfl, rfl, rfl⟩

/-- C4: construction (`new` via `with_invoke`) is total and produces a
header whose isa is the stack-block class, whose flags word has bit 25
(`BLOCK_HAS_COPY_DISPOSE`) set, whose reserved word is zero, and whose
invoke pointer is the arity-matched trampoline; the invoke pointer is
unchanged by promotion. -/
theorem construction_header_fields {V : Type} (n : Nat) (c : Clos V) (alloc : Nat) :
    ((ConcreteBlock.new n c alloc).1).base.isa = ClassId.stackBlock ∧
    ((ConcreteBlock.new n c alloc).1).base.flags = 1 <<< 25 ∧
    ((ConcreteBlock.new n c alloc).1).base._reserved = 0 ∧
    ((ConcreteBlock.new n c alloc).1).base.invoke = CodePtr.trampoline n ∧
    (ConcreteBlock.copy (ConcreteBlock.new n c alloc).1).base.invoke =
        CodePtr.trampoline n := by
  exact ⟨rfl, rfl, rfl, rfl, rfl⟩

/-- C5: the descriptor attached at construction records a zero reserved
field and a `block_size` equal to the byte size of the whole
`ConcreteBlock` instance type, and the heap copy produced by promotion
references the identical descriptor, so the equality persists. -/
theorem descriptor_records_exact_size {V : Type} (n : Nat) (c : Clos V) (alloc : Nat) :
    ((ConcreteBlock.new n c alloc).1).descriptor.val._reserved = 0 ∧
    ((ConcreteBlock.new n c alloc).1).descriptor.val.block_size =
        concrete_block_size c.size ∧
    (ConcreteBlock.copy (ConcreteBlock.new n c alloc).1).descriptor =
        ((ConcreteBlock.new n c alloc).1).descriptor := by
  exact ⟨rfl, rfl, rfl⟩

/-- C8: the default copy helper is a no-op: every fresh descriptor
installs `block_context_copy`, which leaves both the destination and
the source block unchanged, as does its dispatch through the stored
helper pointer. -/
theorem default_copy_helper_noop (s : Nat) :
    (BlockDescriptor.new s).copy_helper = HelperPtr.contextCopy ∧
    (∀ (B : Type) (dst src : B), block_context_copy dst src = (dst, src)) ∧
    (∀ (V : Type) (dst src : ConcreteBlock V),
      copy_helper_sem HelperPtr.contextCopy dst src = (dst, src)) := by
  exact ⟨rfl, fun _ _ _ => rfl, fun _ _ _ => rfl⟩

/-- C9: Scenario B — wrapping `|a| a + 5`, promoting, and invoking the
promoted handle with 6 returns 11; Scenario A — wrapping `|| 13` and
invoking it directly returns 13. -/
theorem scenario_blocks :
    ConcreteBlock.call (ConcreteBlock.copy (ConcreteBlock.new 1 add_five 0).1)
        [Val.int 6] = some (Val.int 11) ∧
    ConcreteBlock.call (ConcreteBlock.new 0 const13 0).1 [] = some (Val.int 13) := by
  exact ⟨rfl, rfl⟩

theorem build_blocks_addr_lower_bound {V : Type} (specs : List (CodePtr × Clos V)) :
    ∀ (alloc : Nat) (b : ConcreteBlock V),
      b ∈ (build_blocks specs alloc).1 → alloc ≤ b.descriptor.addr := by
  induction specs with
  | nil =>
    intro alloc b hb
    simp [build_blocks] at hb
  | cons pc rest ih =>
    intro alloc b hb
    obtain ⟨p, c⟩ := pc
    simp only [build_blocks, with_invoke, List.mem_cons] at hb
    rcases hb with hb | hb
    · subst hb
      exact Nat.le_refl alloc
    · exact Nat.le_of_succ_le (ih (alloc + 1) b hb)

theorem build_blocks_pairwise_addr {V : Type} (specs : List (CodePtr × Clos V)) :
    ∀ alloc : Nat,
      ((build_blocks specs alloc).1).Pairwise
        (fun b₁ b₂ => b₁.descriptor.addr ≠ b₂.descriptor.addr) := by
  induction specs with
  | nil =>
    intro alloc
    simp [build_blocks]
  | cons pc rest ih =>
    intro alloc
    obtain ⟨p, c⟩ := pc
    simp only [build_blocks, with_invoke]
    refine List.Pairwise.cons ?_ (ih (alloc + 1))
    intro b hb
    have hge := build_blocks_addr_lower_bound rest (alloc + 1) b hb
    simp only [with_invoke]
    omega

/-- C7: every operation producing a `ConcreteBlock` — `new` and
`Clone` — allocates a fresh descriptor box: any chain of constructions
threaded through the allocator yields pairwise distinct descriptor
addresses, `new` consumes exactly the next address, and a clone gets
its own fresh descriptor while carrying the same invoke pointer as the
original. -/
theorem fresh_descriptor_per_instance {V : Type} (specs : List (CodePtr × Clos V))
    (alloc a : Nat) (b : ConcreteBlock V) (n : Nat) (c : Clos V) :
    ((build_blocks specs alloc).1).Pairwise
        (fun b₁ b₂ => b₁.descriptor.addr ≠ b₂.descriptor.addr) ∧
    ((ConcreteBlock.new n c alloc).1).descriptor.addr = alloc ∧
    (ConcreteBlock.new n c alloc).2 = alloc + 1 ∧
    ((ConcreteBlock.clone b a).1).base.invoke = b.base.invoke ∧
    ((ConcreteBlock.clone b a).1).descriptor.addr = a ∧
    (ConcreteBlock.clone b a).2 = a + 1 :=
  ⟨build_blocks_pairwise_addr specs alloc, rfl, rfl, rfl, rfl, rfl⟩

theorem count_idents_eq_length : ∀ ts : List ArgTy, count_idents ts = ts.length := by
  intro ts
  induction ts with
  | nil => rfl
  | cons a rest ih =>
    cases rest with
    | nil => rfl
    | cons b rest2 =>
      rw [count_idents, ih]
      simp
      omega

theorem encode_arguments_encodings_get (ts : List ArgTy) :
    ∀ i : Nat, (encode_arguments_encodings ts).get? i = (ts.get? i).map ArgTy.enc := by
  induction ts with
  | nil =>
    intro i
    simp [encode_arguments_encodings]
  | cons t rest ih =>
    intro i
    cases i with
    | zero => rfl
    | succ j => simpa [encode_arguments_encodings] using ih j

theorem encode_arguments_encodings_length (ts : List ArgTy) :
    (encode_arguments_encodings ts).length = ts.length := by
  induction ts with
  | nil => rfl
  | cons t rest ih => simp [encode_arguments_encodings, ih]

/-- C10: for every argument tuple of arity at most 12,
`EncodeArguments::len()` (via `count_idents!`) returns exactly the
arity, and `EncodeArguments::encodings()` returns the per-element
encodings in declaration order (`verify_message_signature` adds 2 to
this count when checking a method's declared argument count). -/
theorem encode_arguments_spec (ts : List ArgTy) (h : ts.length ≤ 12) :
    encode_arguments_len ts = ts.length ∧
    ∀ i : Nat, (encode_arguments_encodings ts).get? i = (ts.get? i).map ArgTy.enc :=
  ⟨count_idents_eq_length ts, encode_arguments_encodings_get ts⟩

/-- Witness for C10 on the two-element tuple (int, object). -/
theorem encode_arguments_spec_witness :
    encode_arguments_len [ArgTy.mk "i", ArgTy.mk "@"] = 2 ∧
    (encode_arguments_encodings [ArgTy.mk "i", ArgTy.mk "@"]).get? 1 =
      ([ArgTy.mk "i", ArgTy.mk "@"].get? 1).map ArgTy.enc := by
  have h := encode_arguments_spec [ArgTy.mk "i", ArgTy.mk "@"] (by decide)
  exact ⟨h.1, h.2 1⟩

theorem compare_encodings_cons_some (m : Method) (i : Nat) (e : Encoding)
    (rest : List Encoding) (expected : Encoding)
    (hat : m.argument_type i = some expected) :
    compare_encodings m i (e :: rest) =
      if expected = e then compare_encodings m (i + 1) rest
      else Except.error (MessageError.argumentTypeMismatch m.name i expected e) := by
  rw [compare_encodings, hat]

theorem compare_encodings_cons_none (m : Method) (i : Nat) (e : Encoding)
    (rest : List Encoding) (hat : m.argument_type i = none) :
    compare_encodings m i (e :: rest) =
      Except.error (MessageError.unexpectedArgument m.name i e) := by
  rw [compare_encodings, hat]

theorem compare_encodings_eq_ok (m : Method) :
    ∀ (es : List Encoding) (i : Nat),
      compare_encodings m i es = Except.ok () ↔
        ∀ j, j < es.length → m.argument_type (i + j) = es.get? j := by
  intro es
  induction es with
  | nil =>
    intro i
    simp [compare_encodings]
  | cons e rest ih =>
    intro i
    cases hat : m.argument_type i with
    | none =>
      rw [compare_encodings_cons_none m i e rest hat]
      constructor
      · intro h
        cases h
      · intro h
        have h0 := h 0 (by simp)
        rw [Nat.add_zero, hat] at h0
        simp at h0
    | some expected =>
      rw [compare_encodings_cons_some m i e rest expected hat]
      by_cases he : expected = e
      · subst he
        rw [if_pos rfl, ih (i + 1)]
        constructor
        · intro h j hj
          cases j with
          | zero =>
            rw [Nat.add_zero, hat]
            rfl
          | succ k =>
            have hk := h k (Nat.lt_of_succ_lt_succ (by simpa using hj))
            have harith : i + (k + 1) = i + 1 + k := by omega
            rw [harith]
            simpa using hk
        · intro h k hk
          have hk1 := h (k + 1) (by simpa using Nat.succ_lt_succ hk)
          have harith : i + (k + 1) = i + 1 + k := by omega
          rw [harith] at hk1
          simpa using hk1
      · rw [if_neg he]
        constructor
        · intro h
          cases h
        · intro h
          have h0 := h 0 (by simp)
          rw [Nat.add_zero, hat] at h0
          simp at h0
          exact absurd h0 he

theorem compare_encodings_first_mismatch (m : Method) :
    ∀ (es : List Encoding) (i j : Nat) (exp act : Encoding),
      (∀ k, k < j → m.argument_type (i + k) = es.get? k) →
      m.argument_type (i + j) = some exp →
      es.get? j = some act →
      exp ≠ act →
      compare_encodings m i es =
        Except.error (MessageError.argumentTypeMismatch m.name (i + j) exp act) := by
  intro es
  induction es with
  | nil =>
    intro i j exp act hpre hexp hact hne
    simp at hact
  | cons e rest ih =>
    intro i j exp act hpre hexp hact hne
    cases j with
    | zero =>
      simp at hact
      subst hact
      rw [Nat.add_zero] at hexp ⊢
      rw [compare_encodings_cons_some m i e rest exp hexp]
      rw [if_neg hne]
    | succ k =>
      have h0 := hpre 0 (Nat.succ_pos k)
      rw [Nat.add_zero] at h0
      simp at h0
      rw [compare_encodings_cons_some m i e rest e h0]
      rw [if_pos rfl]
      have hpre2 : ∀ l, l < k → m.argument_type (i + 1 + l) = rest.get? l := by
        intro l hl
        have hp := hpre (l + 1) (Nat.succ_lt_succ hl)
        have harith : i + (l + 1) = i + 1 + l := by omega
        rw [harith] at hp
        simpa using hp
      have hexp2 : m.argument_type (i + 1 + k) = some exp := by
        have harith : i + (k + 1) = i + 1 + k := by omega
        rw [harith] at hexp
        exact hexp
      have hact2 : rest.get? k = some act := by
        simpa using hact
      have hmain := ih (i + 1) k exp act hpre2 hexp2 hact2 hne
      rw [hmain]
      have harith : i + 1 + k = i + (k + 1) := by omega
      rw [harith]

theorem verify_message_signature_found (cls : ObjcClass) (sel : Sel)
    (ret : Encoding) (args : List ArgTy) (m : Method)
    (hm : cls.instance_method sel = some m) :
    verify_message_signature cls sel ret args =
      if m.return_type ≠ ret then
        Except.error (MessageError.returnTypeMismatch ret m.return_type m.name)
      else if 2 + encode_arguments_len args ≠ m.arguments_count then
        Except.error (MessageError.argumentCountMismatch m.name m.arguments_count
          (2 + encode_arguments_len args))
      else compare_encodings m 2 (encode_arguments_encodings args) := by
  rw [verify_message_signature, hm]

/-- C6: `verify_message_signature` returns `Ok(())` exactly when the
class has an instance method for the selector whose return-type
encoding equals `R`'s, whose declared argument count equals 2 plus
`A::len()`, and whose declared encoding at each index matches the
supplied one; and on a per-argument mismatch it returns an error
identifying the method, the offending argument index, and the expected
and given encodings. -/
theorem verify_message_signature_spec (cls : ObjcClass) (sel : Sel)
    (ret : Encoding) (args : List ArgTy) :
    (verify_message_signature cls sel ret args = Except.ok () ↔
      ∃ m, cls.instance_method sel = some m ∧
        m.return_type = ret ∧
        m.arguments_count = 2 + encode_arguments_len args ∧
        ∀ j, j < (encode_arguments_encodings args).length →
          m.argument_type (2 + j) = (encode_arguments_encodings args).get? j) ∧
    (∀ (m : Method) (j : Nat) (exp act : Encoding),
      cls.instance_method sel = some m →
      m.return_type = ret →
      m.arguments_count = 2 + encode_arguments_len args →
      (∀ k, k < j →
        m.argument_type (2 + k) = (encode_arguments_encodings args).get? k) →
      m.argument_type (2 + j) = some exp →
      (encode_arguments_encodings args).get? j = some act →
      exp ≠ act →
      verify_message_signature cls sel ret args =
        Except.error (MessageError.argumentTypeMismatch m.name (2 + j) exp act)) := by
  constructor
  · cases hm : cls.instance_method sel with
    | none =>
      rw [verify_message_signature, hm]
      constructor
      · intro h
        cases h
      · rintro ⟨m', hm', hret', hcount', h'⟩
        cases hm'
    | some m =>
      rw [verify_message_signature_found cls sel ret args m hm]
      by_cases hret : m.return_type = ret
      · rw [if_neg (not_not_intro hret)]
        by_cases hcount : 2 + encode_arguments_len args = m.arguments_count
        · rw [if_neg (not_not_intro hcount)]
          rw [compare_encodings_eq_ok m (encode_arguments_encodings args) 2]
          constructor
          · intro h
            exact ⟨m, rfl, hret, hcount.symm, h⟩
          · rintro ⟨m', hm', hret', hcount', h'⟩
            cases hm'
            exact h'
        · rw [if_pos hcount]
          constructor
          · intro h
            cases h
          · rintro ⟨m', hm', hret', hcount', h'⟩
            cases hm'
            exact absurd hcount'.symm hcount
      · rw [if_pos hret]
        constructor
        · intro h
          cases h
        · rintro ⟨m', hm', hret', hcount', h'⟩
          cases hm'
          exact absurd hret' hret
  · intro m j exp act hm hret hcount hpre hexp hact hne
    rw [verify_message_signature_found cls sel ret args m hm]
    rw [if_neg (not_not_intro hret)]
    rw [if_neg (not_not_intro hcount.symm)]
    exact compare_encodings_first_mismatch m (encode_arguments_encodings args)
      2 j exp act hpre hexp hact hne

/-- Witness for C6: on a class whose `setX:` method takes an int, a
float argument encoding is rejected with an error naming index 2 and
the expected and given encodings. -/
theorem verify_message_signature_spec_witness :
    verify_message_signature test_class "setX:" "v" [ArgTy.mk "f"] =
      Except.error (MessageError.argumentTypeMismatch "setX:" 2 "i" "f") := by
  have h := (verify_message_signature_spec test_class "setX:" "v" [ArgTy.mk "f"]).2
    { name := "setX:", return_type := "v", arg_types := ["@", ":", "i"] }
    0 "i" "f" (by decide) (by decide) (by decide)
    (fun k hk => absurd hk (by omega)) (by decide) (by decide) (by decide)
  simpa using h

end Objc
